import Mathlib

/-!
Shallow embedding of the loyalty_system repository (Go).

Source files embedded here:
- internal/repository/dbstorage.go : the PostgreSQL-backed store
  (SetUser, CheckUser, GetUserBalance, SpendPoints, AddOrder,
  UpdateOrderStatus, UpdateOrderStatusAndAccrual).
- internal/handler/helpers.go : isIntegerAtoi, isValidLuhn.
- internal/handler/handlers.go : SendOrderHandler, WithdrawPointsHandler
  (their validation and dispatch logic).
- internal/service (bounded worker variant) : PollOrderStatus, the
  per-order reconciliation polling loop with a 2-minute deadline and a
  5-second ticker.

Modelling conventions:
- The database is a record of lists mirroring the four tables of
  migrations/000001_create_system_table.up.sql.  SQL UPDATE ... WHERE
  becomes a map over the rows, INSERT becomes an append, SELECT ... WHERE
  becomes List.find?.
- User ids are UUIDs generated by the database; usernames are UNIQUE, so
  ids are in bijection with usernames and are modelled by the username
  itself.
- Monetary amounts travel as float64 in Go into NUMERIC(10,2) columns,
  where the arithmetic (balance + x, total_spent + x) is exact decimal
  arithmetic; they are modelled as exact rationals.  The orders.accrual
  column is INTEGER in the DDL; the model stores the given value (all
  claims involve integral accruals).
- Every mutating repository function opens a transaction and rolls it
  back on error (defer tx.Rollback in the source); a mutating operation
  therefore returns the pair (resulting state, optional error), where an
  error result carries the unchanged input state.
- Wall-clock time in the worker is modelled by a trace of events (ticker
  waits, HTTP polls, rate-limit sleeps) and the 2-minute deadline by the
  finite number of ticker firings it admits.
-/

/-- Application errors from internal/error (errors.go). `internalErr`
stands for the fmt.Errorf-wrapped low-level errors. -/
inductive GoErr where
  | userNotFound
  | invalidPassword
  | userAlreadyExists
  | orderAlreadyExists
  | orderOwnedByAnotherUser
  | invalidCredentials
  | invalidRequest
  | passwordHashing
  | databaseOperation
  | balanceNotFound
  | insufficientFunds
  | internalErr (msg : String)
  deriving DecidableEq, Repr

/-- One row of the user_balance table: current balance and cumulative
total_spent, both NUMERIC(10,2). -/
structure BalanceRow where
  balance : ℚ
  totalSpent : ℚ
  deriving DecidableEq, Repr

/-- One row of the orders table. -/
structure OrderRow where
  number : String
  userId : String
  status : String
  accrual : Option ℚ
  deriving DecidableEq, Repr

/-- One row of the append-only loyalty_transactions table. -/
structure Txn where
  userId : String
  orderNumber : String
  points : ℚ
  ttype : String
  deriving DecidableEq, Repr

/-- The database state: the four tables of the migration, with user ids
modelled by usernames (usernames are UNIQUE). -/
structure DB where
  users : List String
  balances : List (String × BalanceRow)
  orders : List OrderRow
  txns : List Txn
  deriving DecidableEq, Repr

def DB.empty : DB := ⟨[], [], [], []⟩

/-- Result of a mutating repository call: the state after commit, or the
unchanged state together with the error after rollback. -/
abbrev OpResult := DB × Option GoErr

/-- SELECT id FROM users WHERE username = $1. -/
def userIdOf (db : DB) (username : String) : Option String :=
  db.users.find? (fun u => u == username)

/-- SELECT u.id, ub.balance, ub.total_spent FROM user_balance ub INNER
JOIN users u ON ub.user_id = u.id WHERE u.username = $1. -/
def lookupUserBalance (db : DB) (username : String) :
    Option (String × BalanceRow) :=
  match userIdOf db username with
  | none => none
  | some uid => db.balances.find? (fun p => p.1 == uid)

/-- SELECT user_id, ... FROM orders WHERE order_number = $1. -/
def findOrder (db : DB) (orderNumber : String) : Option OrderRow :=
  db.orders.find? (fun o => o.number == orderNumber)

/-- UPDATE user_balance SET ... WHERE user_id = $2: applies `f` to every
row whose key is `uid`. -/
def updateBalances (db : DB) (uid : String) (f : BalanceRow → BalanceRow) :
    DB :=
  { db with
    balances := db.balances.map (fun p => if p.1 == uid then (p.1, f p.2) else p) }

/-- The row transformation of the balance UPDATE in the credit path:
balance = balance + $1, total_spent untouched. -/
def creditRow (av : ℚ) (r : BalanceRow) : BalanceRow :=
  ⟨r.balance + av, r.totalSpent⟩

/-- The row transformation of the balance UPDATE in the debit path:
balance = balance - $1, total_spent = total_spent + $1. -/
def spendRow (sum : ℚ) (r : BalanceRow) : BalanceRow :=
  ⟨r.balance - sum, r.totalSpent + sum⟩

/-- SetUser (dbstorage.go): validates the credentials, rejects an existing
username, inserts the user and its balance row with balance = 0 and
total_spent = 0, all in one transaction.  Password hashing is modelled as
always succeeding. -/
def setUser (db : DB) (username password : String) : OpResult :=
  if username == "" || password == "" then (db, some .invalidRequest)
  else if (userIdOf db username).isSome then (db, some .userAlreadyExists)
  else
    ({ db with
        users := db.users ++ [username]
        balances := db.balances ++ [(username, ⟨0, 0⟩)] }, none)

/-- GetUserBalance (dbstorage.go): the join of users and user_balance on
the username; ErrBalanceNotFound when the join is empty. -/
def getUserBalance (db : DB) (username : String) : Except GoErr BalanceRow :=
  match lookupUserBalance db username with
  | none => .error .balanceNotFound
  | some (_, row) => .ok row

/-- SpendPoints (dbstorage.go): in one transaction, reads the user id and
current balance, rejects with ErrInsufficientFunds when the requested sum
exceeds the balance, otherwise decrements the balance, increments
total_spent and appends one spend transaction. -/
def spendPoints (db : DB) (user : String) (order : String) (sum : ℚ) :
    OpResult :=
  match lookupUserBalance db user with
  | none => (db, some .balanceNotFound)
  | some (uid, row) =>
    if row.balance < sum then (db, some .insufficientFunds)
    else
      let db1 := updateBalances db uid (spendRow sum)
      ({ db1 with txns := db1.txns ++ [⟨uid, order, sum, "spend"⟩] }, none)

/-- AddOrder (dbstorage.go): in one transaction, resolves the user id
(ErrUserNotFound when absent), looks the order number up across all users
(ErrOrderAlreadyExists for the same user, ErrOrderOwnedByAnotherUser for a
different one), otherwise inserts the order with status NEW. -/
def addOrder (db : DB) (username orderNumber : String) : OpResult :=
  match userIdOf db username with
  | none => (db, some .userNotFound)
  | some uid =>
    match findOrder db orderNumber with
    | some o =>
      if o.userId == uid then (db, some .orderAlreadyExists)
      else (db, some .orderOwnedByAnotherUser)
    | none =>
      ({ db with orders := db.orders ++ [⟨orderNumber, uid, "NEW", none⟩] },
        none)

/-- UpdateOrderStatus (dbstorage.go): a single UPDATE of the status of
every row with the given order number (the column is UNIQUE, so at most
one); affecting zero rows is not an error. -/
def updateOrderStatus (db : DB) (orderNumber status : String) : OpResult :=
  ({ db with
      orders := db.orders.map
        (fun o => if o.number == orderNumber then { o with status := status } else o) },
    none)

/-- UpdateOrderStatusAndAccrual (dbstorage.go): in one transaction, reads
the user id owning the order (rolls back when the order does not exist),
updates the status and accrual of the order, and, only when the status is
PROCESSED with a present accrual strictly greater than zero, credits the
balance of the owning user and appends one earn transaction.  The current
status of the order is not consulted. -/
def updateOrderStatusAndAccrual (db : DB) (orderNumber status : String)
    (accrual : Option ℚ) : OpResult :=
  match findOrder db orderNumber with
  | none => (db, some (.internalErr "error getting user ID for order"))
  | some o =>
    let uid := o.userId
    let db1 : DB :=
      { db with
        orders := db.orders.map
          (fun r =>
            if r.number == orderNumber then
              { r with status := status, accrual := accrual }
            else r) }
    match accrual with
    | some a =>
      if status == "PROCESSED" && decide (0 < a) then
        let db2 := updateBalances db1 uid (creditRow a)
        ({ db2 with txns := db2.txns ++ [⟨uid, orderNumber, a, "earn"⟩] }, none)
      else (db1, none)
    | none => (db1, none)

/-- Number of earn transactions recorded for an order number. -/
def countEarn (db : DB) (orderNumber : String) : Nat :=
  (db.txns.filter (fun t => t.ttype == "earn" && t.orderNumber == orderNumber)).length

/-! ## Order-number validation (internal/handler/helpers.go) -/

/-- Digit value of one byte in the Luhn loop of the source: the Go
expression number[i] - '0' is uint8 arithmetic and wraps modulo 256, so a
sign byte yields a large value rather than a negative one. -/
def goByteDigit (c : Char) : Nat := (c.toNat + 208) % 256

/-- Value of a digit string, most significant first. -/
def digitsToNat (l : List Char) : Nat :=
  l.foldl (fun n c => 10 * n + (c.toNat - 48)) 0

/-- The digit part of strconv.Atoi: one or more decimal digits whose
value fits the signed 64-bit range for the given sign. -/
def goAtoiDigits (ds : List Char) (neg : Bool) : Option Int :=
  if ds = [] then none
  else if ds.all Char.isDigit then
    let v := digitsToNat ds
    if neg then
      if v ≤ 2 ^ 63 then some (-(v : Int)) else none
    else
      if v ≤ 2 ^ 63 - 1 then some (v : Int) else none
  else none

/-- strconv.Atoi (Go, 64-bit int): an optional single leading sign
followed by one or more decimal digits, whose value fits in a signed
64-bit integer; returns the parsed value. -/
def goAtoi (s : String) : Option Int :=
  match s.data with
  | [] => none
  | c :: cs =>
    if c = '-' then goAtoiDigits cs true
    else if c = '+' then goAtoiDigits cs false
    else goAtoiDigits (c :: cs) false

/-- isIntegerAtoi (helpers.go). -/
def isIntegerAtoi (s : String) : Bool := (goAtoi s).isSome

/-- The right-to-left Luhn accumulation of the source, over an already
reversed character list, with the doubling flag; digit values are the
wrapped byte values of goByteDigit. -/
def luhnSum : List Char → Bool → Nat
  | [], _ => 0
  | c :: rest, dbl =>
    let d := goByteDigit c
    (if dbl then (if d * 2 > 9 then d * 2 - 9 else d * 2) else d) +
      luhnSum rest (!dbl)

/-- isValidLuhn (helpers.go): false unless strconv.Atoi accepts the
string; otherwise the Luhn loop over the bytes of the string, right to
left, doubling every second digit. -/
def isValidLuhn (s : String) : Bool :=
  if !isIntegerAtoi s then false
  else luhnSum s.data.reverse false % 10 == 0

/-- Modelled from the words of the spec, for comparison with isValidLuhn:
a decimal numeral string (one or more digits, nothing else). -/
def isNumeralString (s : String) : Bool :=
  !s.data.isEmpty && s.data.all Char.isDigit

/-- The Luhn accumulation as the spec words it, over digit characters
only. -/
def luhnSpecSum : List Char → Bool → Nat
  | [], _ => 0
  | c :: rest, dbl =>
    let d := c.toNat - 48
    (if dbl then (if d * 2 > 9 then d * 2 - 9 else d * 2) else d) +
      luhnSpecSum rest (!dbl)

/-- Modelled from the words of the spec, for comparison with isValidLuhn:
a decimal numeral string satisfying the Luhn checksum, with no length
restriction. -/
def luhnChecksumSpec (s : String) : Bool :=
  isNumeralString s && luhnSpecSum s.data.reverse false % 10 == 0

/-! ## HTTP handlers (internal/handler/handlers.go) -/

/-- SendOrderHandler (handlers.go), after authentication: rejects an
empty body (422), rejects an order number isValidLuhn refuses (422) before
any state mutation, then calls AddOrder, mapping its outcomes to the HTTP
codes of the source (202 accepted, 200 already uploaded by this user, 409
owned by another user, 500 otherwise). -/
def sendOrderHandler (db : DB) (username orderNumber : String) : DB × Nat :=
  if orderNumber == "" then (db, 422)
  else if !isValidLuhn orderNumber then (db, 422)
  else
    match addOrder db username orderNumber with
    | (db1, none) => (db1, 202)
    | (db1, some .orderAlreadyExists) => (db1, 200)
    | (db1, some .orderOwnedByAnotherUser) => (db1, 409)
    | (db1, some _) => (db1, 500)

/-- WithdrawPointsHandler (handlers.go), after authentication and JSON
decoding: rejects an empty order number or a non-positive sum (400),
rejects an order number isValidLuhn refuses (422), then calls SpendPoints,
mapping its outcomes to the HTTP codes of the source (200, 402
insufficient funds, 500 otherwise). -/
def withdrawPointsHandler (db : DB) (username order : String) (sum : ℚ) :
    DB × Nat :=
  if order == "" || decide (sum ≤ 0) then (db, 400)
  else if !isValidLuhn order then (db, 422)
  else
    match spendPoints db username order sum with
    | (db1, none) => (db1, 200)
    | (db1, some .insufficientFunds) => (db1, 402)
    | (db1, some _) => (db1, 500)

/-! ## Reconciliation worker (internal/service, bounded variant)

PollOrderStatus starts a goroutine with a 2-minute context deadline and a
5-second ticker; each tick it queries the accrual endpoint and reacts to
the response.  The loop is sequential: the deadline is modelled as the
finite number of ticker firings the 2-minute budget admits, the responses
as a list consumed one per poll, and the timing as a trace of events. -/

/-- Outcome of one poll of the external accrual service, as the worker
case-switches on it: a decoded 200 body, a 204, a 429 with the value of
the Retry-After header (empty when absent), or anything else (network
error, decode error, unexpected status) which the worker logs and skips. -/
inductive AccrualResp where
  | ok (status : String) (accrual : Option ℚ)
  | noContent
  | tooMany (retryAfterHeader : String)
  | other
  deriving DecidableEq, Repr

/-- The statuses the worker treats as final. -/
def isTerminal : AccrualResp → Bool
  | .ok s _ => s == "PROCESSED" || s == "INVALID"
  | _ => false

/-- The suspension the worker applies on a 429: the Atoi-parsed value of
the Retry-After header when present and parsable, 30 seconds otherwise
(time.Sleep of a negative duration returns immediately). -/
def retrySeconds (hdr : String) : Int :=
  if hdr == "" then 30
  else
    match goAtoi hdr with
    | some n => n
    | none => 30

/-- Timed events of the worker loop: the 5-second ticker wait preceding
each poll, the poll itself, and a rate-limit sleep. -/
inductive PollEv where
  | tick
  | request (r : AccrualResp)
  | sleep (secs : Int)
  deriving DecidableEq, Repr

/-- The state mutation on a terminal response: UpdateOrderStatusAndAccrual
when the status is PROCESSED and the body carried an accrual, plain
UpdateOrderStatus otherwise; errors from either are logged and the worker
returns regardless. -/
def applyTerminal (db : DB) (orderNumber status : String)
    (accrual : Option ℚ) : DB :=
  if status == "PROCESSED" && accrual.isSome then
    (updateOrderStatusAndAccrual db orderNumber status accrual).1
  else
    (updateOrderStatus db orderNumber status).1

/-- The polling loop of PollOrderStatus: fuel counts the remaining ticker
firings before the 2-minute deadline fires (the select on the expired
context returns); one response is consumed per tick; a terminal response
triggers the single write and ends the loop; every other response leaves
the state untouched and polling continues, with a sleep of retrySeconds
inserted after a 429. -/
def pollLoop (orderNumber : String) :
    Nat → List AccrualResp → DB → DB × List PollEv
  | 0, _, db => (db, [])
  | _ + 1, [], db => (db, [])
  | fuel + 1, r :: rest, db =>
    match r with
    | .ok s acc =>
      if s == "PROCESSED" || s == "INVALID" then
        (applyTerminal db orderNumber s acc, [.tick, .request r])
      else
        let next := pollLoop orderNumber fuel rest db
        (next.1, .tick :: .request r :: next.2)
    | .noContent =>
      let next := pollLoop orderNumber fuel rest db
      (next.1, .tick :: .request r :: next.2)
    | .tooMany hdr =>
      let next := pollLoop orderNumber fuel rest db
      (next.1, .tick :: .request r :: .sleep (retrySeconds hdr) :: next.2)
    | .other =>
      let next := pollLoop orderNumber fuel rest db
      (next.1, .tick :: .request r :: next.2)

/-- The polling interval of the ticker, in seconds. -/
def pollIntervalSeconds : Nat := 5

/-- The wall-clock budget of one worker: timeout := 2 * time.Minute. -/
def workerTimeoutSeconds : Nat := 120

/-- The number of ticker firings the 2-minute budget admits (sleeps only
consume budget, so this is an upper bound on the polls of one worker). -/
def workerMaxPolls : Nat := workerTimeoutSeconds / pollIntervalSeconds

/-- PollOrderStatus (bounded variant): the polling loop run with the
finite budget of its 2-minute deadline. -/
def pollOrderStatus (orderNumber : String) (resps : List AccrualResp)
    (db : DB) : DB × List PollEv :=
  pollLoop orderNumber workerMaxPolls resps db

/-! ## The exposed operations as a transition system

The operations that mutate balances, as they are exposed: registration
through SetUser, the worker credit path through
UpdateOrderStatusAndAccrual (with whatever status and accrual the
external service reported), and the withdrawal endpoint through
WithdrawPointsHandler (which validates the order number and the
positivity of the sum before calling SpendPoints, handlers.go). -/
inductive SysOp where
  | register (username password : String)
  | credit (orderNumber status : String) (accrual : Option ℚ)
  | withdraw (username order : String) (sum : ℚ)
  deriving DecidableEq, Repr

/-- One exposed operation applied to the state (errors roll back to the
unchanged state). -/
def applyOp (db : DB) : SysOp → DB
  | .register u p => (setUser db u p).1
  | .credit n s a => (updateOrderStatusAndAccrual db n s a).1
  | .withdraw u ord s => (withdrawPointsHandler db u ord s).1

/-- The state after a sequence of exposed operations from the empty
database. -/
def runOps (ops : List SysOp) : DB := ops.foldl applyOp DB.empty

/-- The balance row stored for a user id, when one exists. -/
def balRowOf (db : DB) (uid : String) : Option BalanceRow :=
  (db.balances.find? (fun p => p.1 == uid)).map Prod.snd

/-- Structural well-formedness of the balance table maintained by the
exposed operations: usernames unique, one balance row per user id, every
balance row belongs to a registered user, and every balance nonnegative. -/
def BalancesWF (db : DB) : Prop :=
  db.users.Nodup ∧
  (db.balances.map Prod.fst).Nodup ∧
  (∀ p ∈ db.balances, p.1 ∈ db.users) ∧
  (∀ p ∈ db.balances, 0 ≤ p.2.balance)

/-! ## Concrete fixture states for witnesses and counterexamples -/

/-- A user with a balance of 50 and nothing spent (the Debit scenario of
the spec). -/
def dbFifty : DB := ⟨["alice"], [("alice", ⟨50, 0⟩)], [], []⟩

/-- A user with balance 0 and one order in PROCESSING (the reconciliation
scenario of the spec). -/
def dbPending : DB :=
  ⟨["alice"], [("alice", ⟨0, 0⟩)],
    [⟨"12345678903", "alice", "PROCESSING", none⟩], []⟩

/-- The double-credit run: register, submit an order, then run the credit
path twice with status PROCESSED and accrual 10. -/
def dbStep1 : DB := (setUser DB.empty "alice" "pw").1

def dbStep2 : DB := (addOrder dbStep1 "alice" "79927398713").1

def dbStep3 : DB :=
  (updateOrderStatusAndAccrual dbStep2 "79927398713" "PROCESSED" (some 10)).1

def dbStep4 : DB :=
  (updateOrderStatusAndAccrual dbStep3 "79927398713" "PROCESSED" (some 10)).1

/-! ## Helper lemmas -/

theorem balFind_map (l : List (String × BalanceRow)) (uid0 uid : String)
    (f : BalanceRow → BalanceRow) :
    (l.map (fun p => if p.1 == uid0 then (p.1, f p.2) else p)).find?
        (fun p => p.1 == uid)
      = (l.find? (fun p => p.1 == uid)).map
          (fun p => if p.1 == uid0 then (p.1, f p.2) else p) := by
  have hkey : ∀ q : String × BalanceRow,
      (if q.1 == uid0 then (q.1, f q.2) else q).1 = q.1 := by
    intro q; by_cases h0 : q.1 = uid0 <;> simp [h0]
  induction l with
  | nil => rfl
  | cons x xs ih =>
    by_cases h : x.1 = uid
    · rw [List.map_cons, List.find?_cons_of_pos _ (by rw [hkey]; simp [h]),
        List.find?_cons_of_pos _ (by simp [h])]
      simp
    · rw [List.map_cons, List.find?_cons_of_neg _ (by rw [hkey]; simp [h]),
        List.find?_cons_of_neg _ (by simp [h])]
      exact ih

theorem balKeys_map (l : List (String × BalanceRow)) (uid0 : String)
    (f : BalanceRow → BalanceRow) :
    (l.map (fun p => if p.1 == uid0 then (p.1, f p.2) else p)).map Prod.fst
      = l.map Prod.fst := by
  rw [List.map_map]
  apply List.map_congr_left
  intro p _
  by_cases h0 : p.1 = uid0 <;> simp [h0]

theorem orderFind_map (l : List OrderRow) (n s : String) (acc : Option ℚ) :
    (l.map (fun r =>
        if r.number == n then { r with status := s, accrual := acc } else r)).find?
          (fun o => o.number == n)
      = (l.find? (fun o => o.number == n)).map
          (fun r => { r with status := s, accrual := acc }) := by
  induction l with
  | nil => rfl
  | cons x xs ih =>
    by_cases h : x.number = n
    · rw [List.map_cons, List.find?_cons_of_pos _ (by simp [h]),
        List.find?_cons_of_pos _ (by simp [h])]
      simp [h]
    · rw [List.map_cons, List.find?_cons_of_neg _ (by simp [h]),
        List.find?_cons_of_neg _ (by simp [h])]
      exact ih

theorem find?_of_mem_nodupKeys (l : List (String × BalanceRow))
    (hnd : (l.map Prod.fst).Nodup) (p : String × BalanceRow) (hp : p ∈ l) :
    l.find? (fun q => q.1 == p.1) = some p := by
  induction l with
  | nil => cases hp
  | cons x xs ih =>
    rcases List.mem_cons.mp hp with rfl | hmem
    · exact List.find?_cons_of_pos _ (by simp)
    · have hx : x.1 ≠ p.1 := by
        intro hcontra
        have : p.1 ∈ xs.map Prod.fst := List.mem_map_of_mem Prod.fst hmem
        rw [List.map_cons, List.nodup_cons] at hnd
        exact hnd.1 (hcontra ▸ this)
      rw [List.find?_cons_of_neg _ (by simp [hx])]
      exact ih (by rw [List.map_cons, List.nodup_cons] at hnd; exact hnd.2) hmem

theorem lookupUserBalance_found (db : DB) (u uid : String) (row : BalanceRow)
    (hlook : lookupUserBalance db u = some (uid, row)) :
    userIdOf db u = some uid ∧
      db.balances.find? (fun p => p.1 == uid) = some (uid, row) := by
  unfold lookupUserBalance at hlook
  rcases huid : userIdOf db u with _ | uid0
  · rw [huid] at hlook; cases hlook
  · rw [huid] at hlook
    simp only at hlook
    have hkey := List.find?_some hlook
    have he : uid = uid0 := by simpa using hkey
    subst he
    exact ⟨rfl, hlook⟩

/-! Characterization equations for the repository operations. -/

theorem setUser_invalid (db : DB) (u p : String)
    (h : (u == "" || p == "") = true) :
    setUser db u p = (db, some .invalidRequest) := by
  unfold setUser; rw [if_pos h]

theorem setUser_exists (db : DB) (u p : String)
    (hval : (u == "" || p == "") = false)
    (h : (userIdOf db u).isSome = true) :
    setUser db u p = (db, some .userAlreadyExists) := by
  unfold setUser
  rw [if_neg (by simp [hval]), if_pos h]

theorem setUser_success (db : DB) (u p : String)
    (hval : (u == "" || p == "") = false)
    (h : userIdOf db u = none) :
    setUser db u p =
      ({ db with
          users := db.users ++ [u]
          balances := db.balances ++ [(u, ⟨0, 0⟩)] }, none) := by
  unfold setUser
  rw [if_neg (by simp [hval]), if_neg (by simp [h])]

theorem spendPoints_noBalance (db : DB) (u ord : String) (sum : ℚ)
    (hlook : lookupUserBalance db u = none) :
    spendPoints db u ord sum = (db, some .balanceNotFound) := by
  unfold spendPoints; rw [hlook]

theorem spendPoints_insufficient (db : DB) (u ord : String) (sum : ℚ)
    (uid : String) (row : BalanceRow)
    (hlook : lookupUserBalance db u = some (uid, row))
    (hgt : row.balance < sum) :
    spendPoints db u ord sum = (db, some .insufficientFunds) := by
  unfold spendPoints; rw [hlook]; simp only; rw [if_pos hgt]

theorem spendPoints_success (db : DB) (u ord : String) (sum : ℚ)
    (uid : String) (row : BalanceRow)
    (hlook : lookupUserBalance db u = some (uid, row))
    (hle : sum ≤ row.balance) :
    spendPoints db u ord sum =
      ({ users := db.users
         balances := db.balances.map (fun p =>
           if p.1 == uid then (p.1, spendRow sum p.2) else p)
         orders := db.orders
         txns := db.txns ++ [⟨uid, ord, sum, "spend"⟩] }, none) := by
  unfold spendPoints; rw [hlook]; simp only
  rw [if_neg (not_lt.mpr hle)]
  rfl

theorem addOrder_noUser (db : DB) (u n : String)
    (h : userIdOf db u = none) :
    addOrder db u n = (db, some .userNotFound) := by
  unfold addOrder; rw [h]

theorem addOrder_existing (db : DB) (u n uid : String) (o : OrderRow)
    (hu : userIdOf db u = some uid) (ho : findOrder db n = some o) :
    addOrder db u n =
      (db, some (if o.userId == uid then .orderAlreadyExists
                 else .orderOwnedByAnotherUser)) := by
  unfold addOrder; rw [hu]; simp only; rw [ho]; simp only
  by_cases h : o.userId = uid <;> simp [h]

theorem addOrder_new (db : DB) (u n uid : String)
    (hu : userIdOf db u = some uid) (ho : findOrder db n = none) :
    addOrder db u n =
      ({ db with orders := db.orders ++ [⟨n, uid, "NEW", none⟩] }, none) := by
  unfold addOrder; rw [hu]; simp only; rw [ho]

theorem credit_noOrder (db : DB) (n s : String) (acc : Option ℚ)
    (h : findOrder db n = none) :
    updateOrderStatusAndAccrual db n s acc =
      (db, some (.internalErr "error getting user ID for order")) := by
  unfold updateOrderStatusAndAccrual; rw [h]

theorem credit_apply (db : DB) (n s : String) (av : ℚ) (o : OrderRow)
    (hfind : findOrder db n = some o)
    (hcond : (s == "PROCESSED" && decide (0 < av)) = true) :
    updateOrderStatusAndAccrual db n s (some av) =
      ({ users := db.users
         balances := db.balances.map (fun p =>
           if p.1 == o.userId then (p.1, creditRow av p.2) else p)
         orders := db.orders.map (fun r =>
           if r.number == n then { r with status := s, accrual := some av }
           else r)
         txns := db.txns ++ [⟨o.userId, n, av, "earn"⟩] }, none) := by
  unfold updateOrderStatusAndAccrual
  rw [hfind]
  simp only
  rw [if_pos hcond]
  rfl

theorem credit_statusOnly_none (db : DB) (n s : String) (o : OrderRow)
    (hfind : findOrder db n = some o) :
    updateOrderStatusAndAccrual db n s none =
      ({ db with
          orders := db.orders.map (fun r =>
            if r.number == n then { r with status := s, accrual := none }
            else r) }, none) := by
  unfold updateOrderStatusAndAccrual
  rw [hfind]

theorem credit_statusOnly_some (db : DB) (n s : String) (av : ℚ) (o : OrderRow)
    (hfind : findOrder db n = some o)
    (hcond : (s == "PROCESSED" && decide (0 < av)) = false) :
    updateOrderStatusAndAccrual db n s (some av) =
      ({ db with
          orders := db.orders.map (fun r =>
            if r.number == n then { r with status := s, accrual := some av }
            else r) }, none) := by
  unfold updateOrderStatusAndAccrual
  rw [hfind]
  simp only
  rw [if_neg (by simp [hcond])]

theorem userIdOf_not_mem (db : DB) (u : String)
    (h : userIdOf db u = none) : u ∉ db.users := by
  intro hmem
  unfold userIdOf at h
  have := List.find?_eq_none.mp h u hmem
  simp at this

theorem userIdOf_of_mem (db : DB) (u : String) (h : u ∈ db.users) :
    userIdOf db u = some u := by
  have hs : (db.users.find? (fun x => x == u)).isSome :=
    List.find?_isSome.mpr ⟨u, h, by simp⟩
  rcases Option.isSome_iff_exists.mp hs with ⟨x, hx⟩
  have hxe : x = u := by simpa using List.find?_some hx
  rw [userIdOf, hx, hxe]

theorem wf_balances_update (db : DB) (uid : String) (f : BalanceRow → BalanceRow)
    (os : List OrderRow) (ts : List Txn) (h : BalancesWF db)
    (hf : ∀ p ∈ db.balances, p.1 = uid → 0 ≤ (f p.2).balance) :
    BalancesWF ⟨db.users,
      db.balances.map (fun p => if p.1 == uid then (p.1, f p.2) else p),
      os, ts⟩ := by
  obtain ⟨h1, h2, h3, h4⟩ := h
  refine ⟨h1, ?_, ?_, ?_⟩
  · show ((db.balances.map _).map Prod.fst).Nodup
    rw [balKeys_map]
    exact h2
  · intro q hq
    rcases List.mem_map.mp hq with ⟨pp, hpp, rfl⟩
    by_cases hk : pp.1 = uid
    · rw [if_pos (by simp [hk])]
      exact h3 pp hpp
    · rw [if_neg (by simp [hk])]
      exact h3 pp hpp
  · intro q hq
    rcases List.mem_map.mp hq with ⟨pp, hpp, rfl⟩
    by_cases hk : pp.1 = uid
    · rw [if_pos (by simp [hk])]
      exact hf pp hpp hk
    · rw [if_neg (by simp [hk])]
      exact h4 pp hpp

theorem withdrawHandler_cases (db : DB) (u ord : String) (sum : ℚ) :
    (withdrawPointsHandler db u ord sum).1 = db ∨
      ((ord == "" || decide (sum ≤ 0)) = false ∧
        (withdrawPointsHandler db u ord sum).1 = (spendPoints db u ord sum).1) := by
  unfold withdrawPointsHandler
  split
  · exact Or.inl rfl
  split
  · exact Or.inl rfl
  rename_i hg _
  refine Or.inr ⟨Bool.not_eq_true _ ▸ (by simpa using hg), ?_⟩
  rcases hsp : spendPoints db u ord sum with ⟨db1, e⟩
  rcases e with _ | err
  · simp
  · rcases err <;> simp

theorem wf_applyOp (db : DB) (op : SysOp) (h : BalancesWF db) :
    BalancesWF (applyOp db op) := by
  cases op with
  | register u p =>
    show BalancesWF (setUser db u p).1
    cases hbv : (u == "" || p == "") with
    | true =>
      rw [setUser_invalid db u p hbv]
      exact h
    | false =>
      cases hu : userIdOf db u with
      | some uid =>
        rw [setUser_exists db u p hbv (by simp [hu])]
        exact h
      | none =>
        rw [setUser_success db u p hbv hu]
        obtain ⟨h1, h2, h3, h4⟩ := h
        have hufresh : u ∉ db.users := userIdOf_not_mem db u hu
        refine ⟨?_, ?_, ?_, ?_⟩
        · simp only [List.nodup_append, List.nodup_cons, List.nodup_nil]
          refine ⟨h1, ⟨by simp, trivial⟩, ?_⟩
          intro a ha hmem
          rcases List.mem_singleton.mp hmem with rfl
          exact hufresh ha
        · rw [List.map_append]
          simp only [List.map_cons, List.map_nil, List.nodup_append,
            List.nodup_cons, List.nodup_nil]
          refine ⟨h2, ⟨by simp, trivial⟩, ?_⟩
          intro a ha hmem
          rcases List.mem_singleton.mp hmem with rfl
          rcases List.mem_map.mp ha with ⟨q, hq, rfl⟩
          exact hufresh (h3 q hq)
        · intro q hq
          rcases List.mem_append.mp hq with hold | hnewr
          · exact List.mem_append_left _ (h3 q hold)
          · rcases List.mem_singleton.mp hnewr with rfl
            exact List.mem_append_right _ (by simp)
        · intro q hq
          rcases List.mem_append.mp hq with hold | hnewr
          · exact h4 q hold
          · rcases List.mem_singleton.mp hnewr with rfl
            norm_num
  | credit n s acc =>
    show BalancesWF (updateOrderStatusAndAccrual db n s acc).1
    rcases hfind : findOrder db n with _ | o
    · rw [credit_noOrder db n s acc hfind]
      exact h
    rcases acc with _ | av
    · rw [credit_statusOnly_none db n s o hfind]
      exact h
    cases hcond : (s == "PROCESSED" && decide (0 < av)) with
    | false =>
      rw [credit_statusOnly_some db n s av o hfind hcond]
      exact h
    | true =>
      rw [credit_apply db n s av o hfind hcond]
      apply wf_balances_update db o.userId (creditRow av) _ _ h
      intro p hp _
      have h0 := h.2.2.2 p hp
      have hav : 0 < av := by
        have := hcond
        simp only [Bool.and_eq_true, decide_eq_true_eq] at this
        exact this.2
      show 0 ≤ p.2.balance + av
      linarith
  | withdraw u ord sum =>
    show BalancesWF (withdrawPointsHandler db u ord sum).1
    rcases withdrawHandler_cases db u ord sum with hc | ⟨_, hc⟩
    · rw [hc]
      exact h
    rw [hc]
    rcases hlook : lookupUserBalance db u with _ | pr
    · rw [spendPoints_noBalance db u ord sum hlook]
      exact h
    rcases pr with ⟨uid, row⟩
    rcases lt_or_ge row.balance sum with hgt | hge
    · rw [spendPoints_insufficient db u ord sum uid row hlook hgt]
      exact h
    rw [spendPoints_success db u ord sum uid row hlook hge]
    apply wf_balances_update db uid (spendRow sum) _ _ h
    intro p hp hk
    have hfound := (lookupUserBalance_found db u uid row hlook).2
    have hpfind := find?_of_mem_nodupKeys db.balances h.2.1 p hp
    rw [hk] at hpfind
    have hpe : p = (uid, row) := Option.some_inj.mp (hpfind.symm.trans hfound)
    rw [hpe]
    show 0 ≤ row.balance - sum
    linarith

theorem wf_empty : BalancesWF DB.empty :=
  ⟨List.nodup_nil, List.nodup_nil,
    fun p hp => absurd hp (List.not_mem_nil p),
    fun p hp => absurd hp (List.not_mem_nil p)⟩

theorem wf_runOps (ops : List SysOp) : BalancesWF (runOps ops) := by
  suffices hgen : ∀ (l : List SysOp) (db : DB), BalancesWF db →
      BalancesWF (l.foldl applyOp db) from hgen ops DB.empty wf_empty
  intro l
  induction l with
  | nil => intro db h; exact h
  | cons x xs ih => intro db h; exact ih _ (wf_applyOp db x h)

theorem balRowOf_found (db : DB) (uid : String) (b : BalanceRow)
    (hb : balRowOf db uid = some b) :
    ∃ pr, db.balances.find? (fun p => p.1 == uid) = some pr ∧ pr.2 = b := by
  unfold balRowOf at hb
  rcases hf : db.balances.find? (fun p => p.1 == uid) with _ | pr
  · rw [hf] at hb; cases hb
  · rw [hf] at hb
    exact ⟨pr, hf, by simpa using hb⟩

theorem totalSpent_applyOp (db : DB) (op : SysOp) (uid : String)
    (b : BalanceRow) (hb : balRowOf db uid = some b) :
    ∃ b2, balRowOf (applyOp db op) uid = some b2 ∧
      b.totalSpent ≤ b2.totalSpent := by
  obtain ⟨pr, hpr, hsnd⟩ := balRowOf_found db uid b hb
  cases op with
  | register u p =>
    show ∃ b2, balRowOf (setUser db u p).1 uid = some b2 ∧ _
    cases hbv : (u == "" || p == "") with
    | true =>
      rw [setUser_invalid db u p hbv]
      exact ⟨b, hb, le_refl _⟩
    | false =>
      cases hu : userIdOf db u with
      | some uid0 =>
        rw [setUser_exists db u p hbv (by simp [hu])]
        exact ⟨b, hb, le_refl _⟩
      | none =>
        rw [setUser_success db u p hbv hu]
        refine ⟨b, ?_, le_refl _⟩
        unfold balRowOf
        simp only
        rw [List.find?_append, hpr]
        simp [hsnd]
  | credit n s acc =>
    show ∃ b2, balRowOf (updateOrderStatusAndAccrual db n s acc).1 uid = some b2 ∧ _
    rcases hfind : findOrder db n with _ | o
    · rw [credit_noOrder db n s acc hfind]
      exact ⟨b, hb, le_refl _⟩
    rcases acc with _ | av
    · rw [credit_statusOnly_none db n s o hfind]
      exact ⟨b, hb, le_refl _⟩
    cases hcond : (s == "PROCESSED" && decide (0 < av)) with
    | false =>
      rw [credit_statusOnly_some db n s av o hfind hcond]
      exact ⟨b, hb, le_refl _⟩
    | true =>
      rw [credit_apply db n s av o hfind hcond]
      unfold balRowOf
      simp only
      rw [balFind_map db.balances o.userId uid (creditRow av), hpr]
      by_cases hk : pr.1 = o.userId
      · refine ⟨creditRow av pr.2, by simp [hk], ?_⟩
        simp [creditRow, hsnd]
      · refine ⟨pr.2, by simp [hk], by simp [hsnd]⟩
  | withdraw u ord sum =>
    show ∃ b2, balRowOf (withdrawPointsHandler db u ord sum).1 uid = some b2 ∧ _
    rcases withdrawHandler_cases db u ord sum with hc | ⟨hg, hc⟩
    · rw [hc]
      exact ⟨b, hb, le_refl _⟩
    rw [hc]
    have hpos : 0 < sum := by
      simp only [Bool.or_eq_false_iff, decide_eq_false_iff_not, not_le] at hg
      exact hg.2
    rcases hlook : lookupUserBalance db u with _ | lr
    · rw [spendPoints_noBalance db u ord sum hlook]
      exact ⟨b, hb, le_refl _⟩
    rcases lr with ⟨uid0, row⟩
    rcases lt_or_ge row.balance sum with hgt | hge
    · rw [spendPoints_insufficient db u ord sum uid0 row hlook hgt]
      exact ⟨b, hb, le_refl _⟩
    rw [spendPoints_success db u ord sum uid0 row hlook hge]
    unfold balRowOf
    simp only
    rw [balFind_map db.balances uid0 uid (spendRow sum), hpr]
    by_cases hk : pr.1 = uid0
    · refine ⟨spendRow sum pr.2, by simp [hk], ?_⟩
      simp only [spendRow, hsnd]
      linarith
    · exact ⟨pr.2, by simp [hk], by simp [hsnd]⟩

theorem register_creates (db : DB) (u p : String) (hwf : BalancesWF db)
    (hu : u ≠ "") (hp : p ≠ "") (hnew : userIdOf db u = none) :
    balRowOf (setUser db u p).1 u = some ⟨0, 0⟩ := by
  have hbv : (u == "" || p == "") = false := by simp [hu, hp]
  rw [setUser_success db u p hbv hnew]
  unfold balRowOf
  simp only
  have hnone : db.balances.find? (fun q => q.1 == u) = none := by
    apply List.find?_eq_none.mpr
    intro q hq hqu
    have hq1 : q.1 = u := by simpa using hqu
    have hmem : u ∈ db.users := hq1 ▸ hwf.2.2.1 q hq
    exact userIdOf_not_mem db u hnew hmem
  rw [List.find?_append, hnone]
  simp [List.find?]

theorem char_digit_bounds (c : Char) (h : c.isDigit = true) :
    48 ≤ c.toNat ∧ c.toNat ≤ 57 := by
  unfold Char.isDigit at h
  simp at h
  exact ⟨h.1, h.2⟩

theorem goByteDigit_of_digit (c : Char) (h : c.isDigit = true) :
    goByteDigit c = c.toNat - 48 := by
  obtain ⟨h1, h2⟩ := char_digit_bounds c h
  unfold goByteDigit
  omega

theorem luhnSum_eq_spec (l : List Char) (h : ∀ c ∈ l, c.isDigit = true) :
    ∀ dbl, luhnSum l dbl = luhnSpecSum l dbl := by
  induction l with
  | nil => intro dbl; rfl
  | cons c rest ih =>
    intro dbl
    have hc := h c (List.mem_cons_self c rest)
    have hrest : ∀ x ∈ rest, x.isDigit = true :=
      fun x hx => h x (List.mem_cons_of_mem c hx)
    simp only [luhnSum, luhnSpecSum, goByteDigit_of_digit c hc, ih hrest]

theorem goAtoi_cons (c : Char) (cs : List Char) (s : String)
    (hd : s.data = c :: cs) :
    goAtoi s =
      if c = '-' then goAtoiDigits cs true
      else if c = '+' then goAtoiDigits cs false
      else goAtoiDigits (c :: cs) false := by
  unfold goAtoi
  rw [hd]

theorem atoi_of_numeral (s : String) (hnum : isNumeralString s = true)
    (hbound : digitsToNat s.data ≤ 2 ^ 63 - 1) :
    isIntegerAtoi s = true := by
  have hall : ∀ x ∈ s.data, x.isDigit = true := by
    have h2 := hnum
    unfold isNumeralString at h2
    simp only [Bool.and_eq_true, List.all_eq_true] at h2
    exact h2.2
  rcases hd : s.data with _ | ⟨c, cs⟩
  · unfold isNumeralString at hnum
    rw [hd] at hnum
    simp at hnum
  have hcdig : c.isDigit = true := hall c (by rw [hd]; exact List.mem_cons_self c cs)
  obtain ⟨hb1, hb2⟩ := char_digit_bounds c hcdig
  have hcm : c ≠ '-' := by
    intro hh
    rw [hh] at hb1
    simp at hb1
  have hcp : c ≠ '+' := by
    intro hh
    rw [hh] at hb1
    simp at hb1
  unfold isIntegerAtoi
  rw [goAtoi_cons c cs s hd, if_neg hcm, if_neg hcp]
  unfold goAtoiDigits
  rw [if_neg (by simp)]
  rw [if_pos (by
    simp only [List.all_eq_true]
    intro x hx
    exact hall x (by rw [hd]; exact hx))]
  simp only [Bool.false_eq_true, if_false]
  rw [if_pos (by rw [hd] at hbound; exact hbound)]
  rfl

theorem pollLoop_no_terminal (orderNumber : String) (resps : List AccrualResp)
    (db : DB) (h : ∀ r ∈ resps, isTerminal r = false) :
    ∀ fuel, (pollLoop orderNumber fuel resps db).1 = db := by
  induction resps with
  | nil => intro fuel; cases fuel <;> rfl
  | cons r rest ih =>
    intro fuel
    cases fuel with
    | zero => rfl
    | succ k =>
      have hr := h r (List.mem_cons_self r rest)
      have hrest : ∀ x ∈ rest, isTerminal x = false :=
        fun x hx => h x (List.mem_cons_of_mem r hx)
      have htail := (ih hrest) k
      cases r with
      | ok s acc =>
        have hs : (s == "PROCESSED" || s == "INVALID") = false := by
          simpa [isTerminal] using hr
        simp only [pollLoop, hs, Bool.false_eq_true, if_false]
        exact htail
      | noContent => simpa only [pollLoop] using htail
      | tooMany hdr => simpa only [pollLoop] using htail
      | other => simpa only [pollLoop] using htail

/-! ## Claim theorems -/

/-- C1: the claim states that the credit path detects a terminal order
inside the transaction and never records a second earn transaction.  The
code has no such check: this theorem evaluates the code on the failing
input — register a user, submit order 79927398713, then invoke
UpdateOrderStatusAndAccrual twice with status PROCESSED and accrual 10.
After the first invocation the order is terminal with one earn
transaction, yet the second invocation records a second earn transaction
and credits the balance again (20 instead of 10). -/
theorem C1_double_credit_evaluation :
    (findOrder dbStep3 "79927398713").map OrderRow.status = some "PROCESSED" ∧
    countEarn dbStep3 "79927398713" = 1 ∧
    balRowOf dbStep3 "alice" = some ⟨0 + 10, 0⟩ ∧
    countEarn dbStep4 "79927398713" = 2 ∧
    balRowOf dbStep4 "alice" = some ⟨0 + 10 + 10, 0⟩ ∧
    (0 : ℚ) + 10 + 10 = 20 :=
  ⟨rfl, rfl, rfl, rfl, rfl, by norm_num⟩

/-- C2: after every sequence of the exposed operations (registration via
SetUser, credit via UpdateOrderStatusAndAccrual, debit via the withdrawal
endpoint wrapping SpendPoints), every stored balance is nonnegative, the
total_spent of any account never decreases across a further operation, and
a successful registration creates the balance record with balance = 0 and
total_spent = 0. -/
theorem C2_balance_invariants (ops : List SysOp) :
    (∀ p ∈ (runOps ops).balances, 0 ≤ p.2.balance) ∧
    (∀ (op : SysOp) (uid : String) (b : BalanceRow),
      balRowOf (runOps ops) uid = some b →
      ∃ b2, balRowOf (runOps (ops ++ [op])) uid = some b2 ∧
        b.totalSpent ≤ b2.totalSpent) ∧
    (∀ u pw : String, u ≠ "" → pw ≠ "" → userIdOf (runOps ops) u = none →
      balRowOf (runOps (ops ++ [SysOp.register u pw])) u = some ⟨0, 0⟩) := by
  have hrw : ∀ op : SysOp, runOps (ops ++ [op]) = applyOp (runOps ops) op := by
    intro op
    unfold runOps
    rw [List.foldl_append]
    rfl
  refine ⟨(wf_runOps ops).2.2.2, ?_, ?_⟩
  · intro op uid b hb
    rw [hrw op]
    exact totalSpent_applyOp (runOps ops) op uid b hb
  · intro u pw hu hpw hnew
    rw [hrw (SysOp.register u pw)]
    exact register_creates (runOps ops) u pw (wf_runOps ops) hu hpw hnew

theorem C2_balance_invariants_witness :
    balRowOf (runOps ([] ++ [SysOp.register "alice" "pw"])) "alice" =
      some ⟨0, 0⟩ :=
  (C2_balance_invariants []).2.2 "alice" "pw" (by decide) (by decide) (by decide)

/-- C3: for a debit of a positive amount against an existing balance row,
SpendPoints returns InsufficientFundsError exactly when the amount exceeds
the current balance, leaving the state unchanged in that case; on success
it subtracts the amount from the balance, adds it to total_spent, and
appends exactly one spend transaction. -/
theorem C3_debit_exact (db : DB) (u ord : String) (sum : ℚ) (uid : String)
    (row : BalanceRow)
    (hlook : lookupUserBalance db u = some (uid, row)) (hpos : 0 < sum) :
    ((spendPoints db u ord sum).2 = some .insufficientFunds ↔
      row.balance < sum) ∧
    ((spendPoints db u ord sum).2 = none ↔ sum ≤ row.balance) ∧
    (row.balance < sum →
      spendPoints db u ord sum = (db, some .insufficientFunds)) ∧
    (sum ≤ row.balance →
      balRowOf (spendPoints db u ord sum).1 uid =
        some ⟨row.balance - sum, row.totalSpent + sum⟩ ∧
      (spendPoints db u ord sum).1.txns =
        db.txns ++ [⟨uid, ord, sum, "spend"⟩]) := by
  obtain ⟨huid, hfind⟩ := lookupUserBalance_found db u uid row hlook
  rcases lt_or_ge row.balance sum with hgt | hge
  · rw [spendPoints_insufficient db u ord sum uid row hlook hgt]
    refine ⟨by simp [hgt], by simp [not_le.mpr hgt], fun _ => rfl, fun hle => ?_⟩
    exact absurd hle (not_le.mpr hgt)
  · rw [spendPoints_success db u ord sum uid row hlook hge]
    refine ⟨by simp [not_lt.mpr hge], by simp [hge],
      fun hlt => absurd hlt (not_lt.mpr hge), fun _ => ⟨?_, rfl⟩⟩
    unfold balRowOf
    simp only
    rw [balFind_map db.balances uid uid (spendRow sum), hfind]
    simp [spendRow]

theorem C3_debit_exact_witness :
    spendPoints dbFifty "alice" "w1" 100 = (dbFifty, some .insufficientFunds) := by
  have h := C3_debit_exact dbFifty "alice" "w1" 100 "alice" ⟨50, 0⟩
    (by decide) (by norm_num)
  exact h.2.2.1 (by norm_num)

/-- C4: a terminal PROCESSED verdict with accrual a > 0 makes the single
transaction of UpdateOrderStatusAndAccrual succeed, set the order status
and accrual, add exactly a to the balance of the owning user with
total_spent untouched, and append exactly one earn transaction; the
polling loop of the worker applies it once and terminates on that poll,
ignoring any further responses. -/
theorem C4_terminal_processed (db : DB) (n : String) (o : OrderRow)
    (row : BalanceRow) (a : ℚ)
    (ho : findOrder db n = some o)
    (hbal : balRowOf db o.userId = some row)
    (ha : 0 < a) :
    (updateOrderStatusAndAccrual db n "PROCESSED" (some a)).2 = none ∧
    findOrder (updateOrderStatusAndAccrual db n "PROCESSED" (some a)).1 n =
      some { o with status := "PROCESSED", accrual := some a } ∧
    balRowOf (updateOrderStatusAndAccrual db n "PROCESSED" (some a)).1
        o.userId = some ⟨row.balance + a, row.totalSpent⟩ ∧
    (updateOrderStatusAndAccrual db n "PROCESSED" (some a)).1.txns =
      db.txns ++ [⟨o.userId, n, a, "earn"⟩] ∧
    (∀ (fuel : Nat) (rest : List AccrualResp),
      pollLoop n (fuel + 1) (AccrualResp.ok "PROCESSED" (some a) :: rest) db =
        ((updateOrderStatusAndAccrual db n "PROCESSED" (some a)).1,
          [.tick, .request (.ok "PROCESSED" (some a))])) := by
  obtain ⟨pr, hpr, hsnd⟩ := balRowOf_found db o.userId row hbal
  have hkey : pr.1 = o.userId := by simpa using List.find?_some hpr
  have happ := credit_apply db n "PROCESSED" a o ho (by simp [ha])
  rw [happ]
  refine ⟨rfl, ?_, ?_, rfl, ?_⟩
  · unfold findOrder
    simp only
    rw [orderFind_map db.orders n "PROCESSED" (some a)]
    unfold findOrder at ho
    rw [ho]
    rfl
  · unfold balRowOf
    simp only
    rw [balFind_map db.balances o.userId o.userId (creditRow a), hpr]
    simp [hkey, creditRow, hsnd]
  · intro fuel rest
    simp only [pollLoop]
    rw [if_pos (by simp)]
    simp only [applyTerminal]
    rw [if_pos (by simp), happ]

theorem C4_terminal_processed_witness :
    balRowOf (updateOrderStatusAndAccrual dbPending "12345678903"
      "PROCESSED" (some 500)).1 "alice" = some ⟨500, 0⟩ := by
  have h := C4_terminal_processed dbPending "12345678903"
    ⟨"12345678903", "alice", "PROCESSING", none⟩ ⟨0, 0⟩ 500
    (by decide) (by decide) (by norm_num)
  simpa using h.2.2.1

/-- C5: the worker of the bounded variant holds a finite wall-clock
budget (2 minutes, here the finite number of ticker firings it admits);
whatever that finite budget is, if no response observed before it runs out
is terminal, the loop exits with the state untouched — no Order Store or
Ledger Store mutation — so the order keeps its last-known non-terminal
status. -/
theorem C5_deadline_clean_exit (orderNumber : String)
    (resps : List AccrualResp) (db : DB)
    (h : ∀ r ∈ resps, isTerminal r = false) :
    (∀ fuel, (pollLoop orderNumber fuel resps db).1 = db) ∧
    (pollOrderStatus orderNumber resps db).1 = db ∧
    findOrder (pollOrderStatus orderNumber resps db).1 orderNumber =
      findOrder db orderNumber := by
  have hmain := pollLoop_no_terminal orderNumber resps db h
  refine ⟨hmain, hmain workerMaxPolls, ?_⟩
  rw [show (pollOrderStatus orderNumber resps db).1 = db from
    hmain workerMaxPolls]

theorem C5_deadline_clean_exit_witness :
    (pollOrderStatus "12345678903"
      [.noContent, .ok "PROCESSING" none, .tooMany "7", .other,
        .ok "NEW" none] dbPending).1 = dbPending :=
  (C5_deadline_clean_exit "12345678903"
    [.noContent, .ok "PROCESSING" none, .tooMany "7", .other,
      .ok "NEW" none] dbPending (by decide)).2.1

/-- C6: on a rate-limited response the worker emits, before anything
else and in particular before any later poll, a sleep of retrySeconds of
the Retry-After header: the parsed number of seconds when the header is a
number (so 2 for Retry-After: 2), 30 when the header is absent; the
following events are exactly those of the resumed regular loop, whose
every poll is preceded by a 5-second tick. -/
theorem C6_rate_limit_suspension (orderNumber hdr : String) (fuel : Nat)
    (rest : List AccrualResp) (db : DB) :
    pollLoop orderNumber (fuel + 1) (.tooMany hdr :: rest) db =
      ((pollLoop orderNumber fuel rest db).1,
        .tick :: .request (.tooMany hdr) :: .sleep (retrySeconds hdr) ::
          (pollLoop orderNumber fuel rest db).2) ∧
    retrySeconds "2" = 2 ∧
    retrySeconds "" = 30 ∧
    (∀ n : Int, hdr ≠ "" → goAtoi hdr = some n → retrySeconds hdr = n) := by
  refine ⟨rfl, by decide, by decide, ?_⟩
  intro n hne hget
  unfold retrySeconds
  rw [if_neg (by simpa using hne), hget]

theorem C6_rate_limit_suspension_witness :
    pollLoop "1" 1 [.tooMany "2"] DB.empty =
      (DB.empty, [.tick, .request (.tooMany "2"), .sleep 2]) ∧
    retrySeconds "2" = 2 := by
  have h := C6_rate_limit_suspension "1" "2" 0 [] DB.empty
  refine ⟨?_, h.2.1⟩
  rw [h.1]
  decide

/-- C7: AddOrder has exactly four outcomes: insertion of one NEW row for
an existing user and a globally fresh number; ErrOrderAlreadyExists when
the number is already owned by the same user (so also on the second and
every later submission, with no duplicate row); ErrOrderOwnedByAnotherUser
when another user owns it; ErrUserNotFound for an unknown user — and
every error outcome returns the state unchanged. -/
theorem C7_addOrder_outcomes (db : DB) (u n : String) :
    (userIdOf db u = none → addOrder db u n = (db, some .userNotFound)) ∧
    (∀ uid, userIdOf db u = some uid →
      (findOrder db n = none →
        addOrder db u n =
          ({ db with orders := db.orders ++ [⟨n, uid, "NEW", none⟩] }, none)) ∧
      (∀ o, findOrder db n = some o →
        addOrder db u n =
          (db, some (if o.userId == uid then .orderAlreadyExists
                     else .orderOwnedByAnotherUser)))) ∧
    ((addOrder db u n).2 = none →
      addOrder (addOrder db u n).1 u n =
        ((addOrder db u n).1, some .orderAlreadyExists)) ∧
    ((addOrder db u n).2 = none ∨
      (addOrder db u n).2 = some .userNotFound ∨
      (addOrder db u n).2 = some .orderAlreadyExists ∨
      (addOrder db u n).2 = some .orderOwnedByAnotherUser) := by
  refine ⟨fun hu => addOrder_noUser db u n hu,
    fun uid hu => ⟨fun ho => addOrder_new db u n uid hu ho,
      fun o ho => addOrder_existing db u n uid o hu ho⟩, ?_, ?_⟩
  · intro hsucc
    rcases hu : userIdOf db u with _ | uid
    · rw [addOrder_noUser db u n hu] at hsucc
      cases hsucc
    rcases ho : findOrder db n with _ | o
    · have hnew := addOrder_new db u n uid hu ho
      rw [hnew]
      have hu2 : userIdOf ({ db with
          orders := db.orders ++ [⟨n, uid, "NEW", none⟩] } : DB) u = some uid := hu
      have ho2 : findOrder ({ db with
          orders := db.orders ++ [⟨n, uid, "NEW", none⟩] } : DB) n =
          some ⟨n, uid, "NEW", none⟩ := by
        unfold findOrder at ho ⊢
        simp only
        rw [List.find?_append, ho]
        simp [List.find?]
      rw [addOrder_existing _ u n uid ⟨n, uid, "NEW", none⟩ hu2 ho2]
      simp
    · rw [addOrder_existing db u n uid o hu ho] at hsucc
      cases hsucc
  · rcases hu : userIdOf db u with _ | uid
    · rw [addOrder_noUser db u n hu]
      simp
    rcases ho : findOrder db n with _ | o
    · rw [addOrder_new db u n uid hu ho]
      simp
    · rw [addOrder_existing db u n uid o hu ho]
      by_cases he : o.userId = uid <;> simp [he]

theorem C7_addOrder_outcomes_witness :
    addOrder dbStep1 "alice" "79927398713" =
      ({ dbStep1 with
          orders := dbStep1.orders ++ [⟨"79927398713", "alice", "NEW", none⟩] },
        none) ∧
    addOrder dbStep2 "alice" "79927398713" =
      (dbStep2, some .orderAlreadyExists) := by
  have h := C7_addOrder_outcomes dbStep1 "alice" "79927398713"
  exact ⟨(h.2.1 "alice" (by decide)).1 (by decide), h.2.2.1 (by decide)⟩

/-- C8 counterexample: the claim says isValidLuhn accepts exactly the
Luhn-valid decimal numeral strings, of any length, and rejects everything
else.  Both directions fail on the code: the signed string +09 is not a
numeral string yet isValidLuhn returns true (strconv.Atoi accepts the
sign, and the byte arithmetic of the loop wraps the sign byte to 251);
the 20-nines string is a Luhn-valid numeral string yet isValidLuhn
returns false (strconv.Atoi overflows the signed 64-bit range). -/
theorem C8_luhn_counterexample :
    (luhnChecksumSpec "+09" = false ∧ isValidLuhn "+09" = true) ∧
    (luhnChecksumSpec "99999999999999999999" = true ∧
      isValidLuhn "99999999999999999999" = false) := by decide

/-- C8 amended: isValidLuhn agrees with the Luhn checksum on decimal
numeral strings whose value fits the signed 64-bit range accepted by
strconv.Atoi (outside it, and on some signed non-numeral strings, it
deviates as the counterexample shows); and order submission rejects any
order number for which isValidLuhn returns false, with status 422 and no
state mutation. -/
theorem C8_luhn_agreement (s : String) (hnum : isNumeralString s = true)
    (hbound : digitsToNat s.data ≤ 2 ^ 63 - 1) :
    isValidLuhn s = luhnChecksumSpec s ∧
    (∀ (db : DB) (u n : String), isValidLuhn n = false →
      sendOrderHandler db u n = (db, 422)) := by
  constructor
  · have hall : ∀ x ∈ s.data, x.isDigit = true := by
      have h2 := hnum
      unfold isNumeralString at h2
      simp only [Bool.and_eq_true, List.all_eq_true] at h2
      exact h2.2
    have hatoi := atoi_of_numeral s hnum hbound
    unfold isValidLuhn luhnChecksumSpec
    rw [hatoi, hnum]
    simp only [Bool.not_true, Bool.false_eq_true, if_false, Bool.true_and]
    rw [luhnSum_eq_spec s.data.reverse
      (fun c hc => hall c (List.mem_reverse.mp hc)) false]
  · intro db u n h
    unfold sendOrderHandler
    by_cases hempty : n = ""
    · rw [if_pos (by simp [hempty])]
    · rw [if_neg (by simp [hempty]), if_pos (by simp [h])]

theorem C8_luhn_agreement_witness :
    isValidLuhn "12345678903" = luhnChecksumSpec "12345678903" ∧
    sendOrderHandler dbStep1 "alice" "1" = (dbStep1, 422) := by
  have h := C8_luhn_agreement "12345678903" (by decide) (by decide)
  exact ⟨h.1, h.2 dbStep1 "alice" "1" (by decide)⟩

/-- C9: crediting an order owned by a user (UpdateOrderStatusAndAccrual
with status PROCESSED and accrual a > 0) and then reading the balance of
that user (GetUserBalance) yields the prior balance plus exactly a, with
total_spent unchanged. -/
theorem C9_credit_roundtrip (db : DB) (u n uid : String) (row : BalanceRow)
    (o : OrderRow) (a : ℚ)
    (hub : lookupUserBalance db u = some (uid, row))
    (ho : findOrder db n = some o)
    (hown : o.userId = uid)
    (ha : 0 < a) :
    getUserBalance (updateOrderStatusAndAccrual db n "PROCESSED" (some a)).1 u =
      .ok ⟨row.balance + a, row.totalSpent⟩ := by
  obtain ⟨huid, hfind⟩ := lookupUserBalance_found db u uid row hub
  have huid2 : db.users.find? (fun x => x == u) = some uid := by
    unfold userIdOf at huid
    exact huid
  rw [credit_apply db n "PROCESSED" a o ho (by simp [ha]), hown]
  unfold getUserBalance lookupUserBalance userIdOf
  dsimp only
  rw [huid2]
  dsimp only
  rw [balFind_map db.balances uid uid (creditRow a), hfind]
  simp [creditRow]

theorem C9_credit_roundtrip_witness :
    getUserBalance (updateOrderStatusAndAccrual dbPending "12345678903"
      "PROCESSED" (some 10)).1 "alice" = .ok ⟨10, 0⟩ := by
  have h := C9_credit_roundtrip dbPending "alice" "12345678903" "alice"
    ⟨0, 0⟩ ⟨"12345678903", "alice", "PROCESSING", none⟩ 10
    (by decide) (by decide) rfl (by norm_num)
  simpa using h

/-- C10: with a sufficient balance, SpendPoints succeeds for any order
number whatsoever and records a spend transaction tagged with it; the
debit path never consults the orders table: replacing the orders table by
anything (for instance one containing no such order) changes nothing in
the outcome except that table itself. -/
theorem C10_spend_ignores_orders (db : DB) (u ord : String) (sum : ℚ)
    (uid : String) (row : BalanceRow) (os : List OrderRow)
    (hub : lookupUserBalance db u = some (uid, row))
    (hle : sum ≤ row.balance) :
    (spendPoints db u ord sum).2 = none ∧
    (spendPoints db u ord sum).1.txns = db.txns ++ [⟨uid, ord, sum, "spend"⟩] ∧
    spendPoints { db with orders := os } u ord sum =
      ({ (spendPoints db u ord sum).1 with orders := os },
        (spendPoints db u ord sum).2) := by
  have hub2 : lookupUserBalance ({ db with orders := os } : DB) u =
      some (uid, row) := hub
  rw [spendPoints_success db u ord sum uid row hub hle,
    spendPoints_success ({ db with orders := os } : DB) u ord sum uid row hub2 hle]
  exact ⟨rfl, rfl, rfl⟩

theorem C10_spend_ignores_orders_witness :
    (spendPoints dbFifty "alice" "w9" 10).2 = none ∧
    (spendPoints dbFifty "alice" "w9" 10).1.txns =
      [⟨"alice", "w9", 10, "spend"⟩] := by
  have h := C10_spend_ignores_orders dbFifty "alice" "w9" 10 "alice"
    ⟨50, 0⟩ [] (by decide) (by norm_num)
  exact ⟨h.1, by simpa using h.2.1⟩
